import Mathlib

/-!
Shallow embedding of the task-tracking domain core of the repository
(miladev95/ddd-task): value objects (TaskStatus, Priority, Deadline,
identifiers), the Task aggregate with its mutating operations and
uncommitted domain-event queue, the domain services
(StatusTransitionService, DeadlineEnforcementService) and the in-memory
event publisher.

Modelling conventions:
* Go `time.Time` values are integers (nanosecond ticks); every operation
  that calls `time.Now()` in the source takes an explicit `now : Int`.
* Go methods that mutate their receiver and return `error` become pure
  functions returning `Task × Option TaskErr`: the first component is the
  receiver's state after the call, the second the returned error
  (`none` = nil error = success).  Early `return err` paths in the source
  occur before any field assignment, hence return the receiver unchanged.
* The nil-pointer dereference in `Task.ChangeStatus` (reading
  `t.assignee.AssigneeID()` when the task is unassigned) is a runtime
  panic in Go; the total embedding surfaces it as the distinguished error
  `TaskErr.nilDeref`, returned together with the mutations that had
  already been applied when the panic fires.
* String-backed Go types (`TaskStatus`, `Priority`, id values) stay
  `String`.
-/

/-- Go constant `value.TaskStatusBacklog`. -/
def TaskStatusBacklog : String := "BACKLOG"

/-- Go constant `value.TaskStatusToDo`. -/
def TaskStatusToDo : String := "TO_DO"

/-- Go constant `value.TaskStatusInProgress`. -/
def TaskStatusInProgress : String := "IN_PROGRESS"

/-- Go constant `value.TaskStatusInReview`. -/
def TaskStatusInReview : String := "IN_REVIEW"

/-- Go constant `value.TaskStatusCompleted`. -/
def TaskStatusCompleted : String := "COMPLETED"

/-- Go constant `value.TaskStatusCancelled`. -/
def TaskStatusCancelled : String := "CANCELLED"

namespace TaskStatus

/-- `value.TaskStatus.IsValid`: membership in the six-value enumeration. -/
def IsValid (t : String) : Bool :=
  t = TaskStatusBacklog || t = TaskStatusToDo || t = TaskStatusInProgress ||
  t = TaskStatusInReview || t = TaskStatusCompleted || t = TaskStatusCancelled

/-- `value.TaskStatus.CanTransitionTo`: the source builds a map from each
status to its allowed-target slice, looks the current status up (absent
key gives `false`) and scans the slice for the target. -/
def CanTransitionTo (t target : String) : Bool :=
  if t = TaskStatusBacklog then
    [TaskStatusToDo, TaskStatusCancelled].contains target
  else if t = TaskStatusToDo then
    [TaskStatusInProgress, TaskStatusBacklog, TaskStatusCancelled].contains target
  else if t = TaskStatusInProgress then
    [TaskStatusInReview, TaskStatusToDo, TaskStatusCancelled].contains target
  else if t = TaskStatusInReview then
    [TaskStatusCompleted, TaskStatusInProgress, TaskStatusCancelled].contains target
  else if t = TaskStatusCompleted then
    ([] : List String).contains target
  else if t = TaskStatusCancelled then
    ([] : List String).contains target
  else
    false

end TaskStatus

/-- The transition table exactly as the specification prints it in §4.2,
as a list of directed `(from, to)` pairs.  Written from the spec's table
(not from the code) so that agreement with `CanTransitionTo` is a
theorem, not a definition. -/
def specTable : List (String × String) :=
  [(TaskStatusBacklog, TaskStatusToDo), (TaskStatusBacklog, TaskStatusCancelled),
   (TaskStatusToDo, TaskStatusInProgress), (TaskStatusToDo, TaskStatusBacklog),
   (TaskStatusToDo, TaskStatusCancelled),
   (TaskStatusInProgress, TaskStatusInReview), (TaskStatusInProgress, TaskStatusToDo),
   (TaskStatusInProgress, TaskStatusCancelled),
   (TaskStatusInReview, TaskStatusCompleted), (TaskStatusInReview, TaskStatusInProgress),
   (TaskStatusInReview, TaskStatusCancelled)]

theorem canTransitionTo_iff_mem (f s : String) :
    TaskStatus.CanTransitionTo f s = true ↔ (f, s) ∈ specTable := by
  unfold TaskStatus.CanTransitionTo specTable
  unfold TaskStatusBacklog TaskStatusToDo TaskStatusInProgress TaskStatusInReview
    TaskStatusCompleted TaskStatusCancelled
  split
  · rename_i h; subst h; simp [List.contains]
  · split
    · rename_i h0 h; subst h; simp [List.contains]
    · split
      · rename_i h0 h1 h; subst h; simp [List.contains]
      · split
        · rename_i h0 h1 h2 h; subst h; simp [List.contains]
        · split
          · rename_i h; subst h; simp
          · split
            · rename_i h; subst h; simp
            · simp_all

/-- Go constant `value.PriorityLow`. -/
def PriorityLow : String := "LOW"

/-- Go constant `value.PriorityMedium`. -/
def PriorityMedium : String := "MEDIUM"

/-- Go constant `value.PriorityHigh`. -/
def PriorityHigh : String := "HIGH"

/-- Go constant `value.PriorityCritical`. -/
def PriorityCritical : String := "CRITICAL"

namespace Priority

/-- `value.Priority.IsValid`: membership in the four-value enumeration. -/
def IsValid (p : String) : Bool :=
  p = PriorityLow || p = PriorityMedium || p = PriorityHigh || p = PriorityCritical

end Priority

/-- `value.Deadline`: a timestamp value object, the Go `time.Time` field
`dueDate` modelled as integer nanosecond ticks. -/
structure Deadline where
  dueDate : Int
  deriving Repr, DecidableEq

/-- `value.NewDeadline`: fails when `dueDate.Before(time.Now())`, i.e.
when the timestamp is strictly before the construction instant. -/
def NewDeadline (now dueDate : Int) : Except String Deadline :=
  if dueDate < now then
    .error "deadline cannot be in the past"
  else
    .ok { dueDate := dueDate }

namespace Deadline

/-- `value.Deadline.Value`. -/
def Value (d : Deadline) : Int := d.dueDate

/-- `value.Deadline.IsOverdue`: `d.dueDate.Before(time.Now())`. -/
def IsOverdue (d : Deadline) (now : Int) : Bool := d.dueDate < now

/-- `value.Deadline.IsDueSoon`:
`d.dueDate.After(now) && d.dueDate.Before(now.Add(duration))`. -/
def IsDueSoon (d : Deadline) (now duration : Int) : Bool :=
  now < d.dueDate && d.dueDate < now + duration

end Deadline

/-- `entity.Assignment`: assignment of a task to a user.  Identifier
value objects (`TaskID`, `UserID`) are string-backed structs compared by
value in the source; they are plain strings here. -/
structure Assignment where
  taskID : String
  assigneeID : String
  assignedAt : Int
  assignedBy : String
  deriving Repr, DecidableEq

/-- `entity.NewAssignment`: fails when the assignee id equals the zero
`UserID` (empty string). -/
def NewAssignment (now : Int) (taskID assigneeID assignedBy : String) :
    Except String Assignment :=
  if assigneeID = "" then
    .error "assignee cannot be empty"
  else
    .ok { taskID := taskID, assigneeID := assigneeID, assignedAt := now,
          assignedBy := assignedBy }

/-- `entity.Comment`: a comment on a task. -/
structure Comment where
  id : String
  taskID : String
  authorID : String
  content : String
  createdAt : Int
  updatedAt : Int
  deriving Repr, DecidableEq

/-- `event.BaseDomainEvent`: common event fields. -/
structure BaseDomainEvent where
  eventType : String
  occurredAt : Int
  aggregateID : String
  aggregateType : String
  deriving Repr, DecidableEq

/-- `event.NewBaseDomainEvent` (its `time.Now()` is the `now` argument). -/
def NewBaseDomainEvent (now : Int) (eventType aggregateID aggregateType : String) :
    BaseDomainEvent :=
  { eventType := eventType, occurredAt := now, aggregateID := aggregateID,
    aggregateType := aggregateType }

/-- `event.DomainEvent`: the closed family of domain events produced by
the Task aggregate, one constructor per Go event struct.  Timestamps the
source formats as RFC 3339 strings are kept as integer ticks. -/
inductive DomainEvent where
  | taskCreated (base : BaseDomainEvent)
      (projectID title description assigneeID priority : String)
  | taskAssigned (base : BaseDomainEvent) (assigneeID previousAssigneeID : String)
  | taskStatusChanged (base : BaseDomainEvent) (oldStatus newStatus : String)
  | taskDeadlineSet (base : BaseDomainEvent) (dueDate : Int)
  | taskOverdue (base : BaseDomainEvent) (daysOverdue : Int)
  | taskCompleted (base : BaseDomainEvent) (completedBy : String)
      (completionTime : Int)
  | taskDeleted (base : BaseDomainEvent) (projectID : String)
  deriving Repr, DecidableEq

namespace DomainEvent

/-- `event.DomainEvent.EventType`: reads the base event's type tag. -/
def EventType : DomainEvent → String
  | taskCreated b _ _ _ _ _ => b.eventType
  | taskAssigned b _ _ => b.eventType
  | taskStatusChanged b _ _ => b.eventType
  | taskDeadlineSet b _ => b.eventType
  | taskOverdue b _ => b.eventType
  | taskCompleted b _ _ => b.eventType
  | taskDeleted b _ => b.eventType

end DomainEvent

/-- `event.NewTaskCreatedEvent`. -/
def NewTaskCreatedEvent (now : Int)
    (taskID projectID title description assigneeID priority : String) : DomainEvent :=
  .taskCreated (NewBaseDomainEvent now "TaskCreated" taskID "Task")
    projectID title description assigneeID priority

/-- `event.NewTaskAssignedEvent`. -/
def NewTaskAssignedEvent (now : Int) (taskID assigneeID previousAssigneeID : String) :
    DomainEvent :=
  .taskAssigned (NewBaseDomainEvent now "TaskAssigned" taskID "Task")
    assigneeID previousAssigneeID

/-- `event.NewTaskStatusChangedEvent`. -/
def NewTaskStatusChangedEvent (now : Int) (taskID oldStatus newStatus : String) :
    DomainEvent :=
  .taskStatusChanged (NewBaseDomainEvent now "TaskStatusChanged" taskID "Task")
    oldStatus newStatus

/-- `event.NewTaskDeadlineSetEvent`. -/
def NewTaskDeadlineSetEvent (now : Int) (taskID : String) (dueDate : Int) :
    DomainEvent :=
  .taskDeadlineSet (NewBaseDomainEvent now "TaskDeadlineSet" taskID "Task") dueDate

/-- `event.NewTaskOverdueEvent`. -/
def NewTaskOverdueEvent (now : Int) (taskID : String) (daysOverdue : Int) :
    DomainEvent :=
  .taskOverdue (NewBaseDomainEvent now "TaskOverdue" taskID "Task") daysOverdue

/-- `event.NewTaskCompletedEvent`. -/
def NewTaskCompletedEvent (now : Int) (taskID completedBy : String)
    (completionTime : Int) : DomainEvent :=
  .taskCompleted (NewBaseDomainEvent now "TaskCompleted" taskID "Task")
    completedBy completionTime

/-- Errors returned (or panics raised) by Task-aggregate operations:
`validation msg` models a Go `fmt.Errorf` return value, `nilDeref` the
nil-pointer dereference panic in `ChangeStatus`'s completion branch. -/
inductive TaskErr where
  | validation (msg : String)
  | nilDeref
  deriving Repr, DecidableEq

namespace Aggregate

/-- `aggregate.Task`: the aggregate root, with its uncommitted
domain-event queue.  Pointer-typed fields (`assignee`, `deadline`) are
`Option`s, the comment pointer slice a list of comments. -/
structure Task where
  id : String
  projectID : String
  title : String
  description : String
  status : String
  priority : String
  assignee : Option Assignment
  deadline : Option Deadline
  comments : List Comment
  createdAt : Int
  updatedAt : Int
  createdBy : String
  domainEvents : List DomainEvent
  deriving Repr, DecidableEq

/-- `aggregate.NewTask`: fails on an empty title or invalid priority;
otherwise the new task starts in `TO_DO` with a single "created" event
(whose assignee field is the empty string). -/
def NewTask (now : Int) (id projectID title description priority createdBy : String) :
    Except TaskErr Task :=
  if title = "" then
    .error (.validation "task title cannot be empty")
  else if !(Priority.IsValid priority) then
    .error (.validation "invalid priority")
  else
    .ok { id := id, projectID := projectID, title := title,
          description := description, status := TaskStatusToDo,
          priority := priority, assignee := none, deadline := none,
          comments := [], createdAt := now, updatedAt := now,
          createdBy := createdBy,
          domainEvents :=
            [NewTaskCreatedEvent now id projectID title description "" priority] }

namespace Task

/-- `aggregate.Task.DomainEvents` (the defensive slice copy is the
identity under value semantics). -/
def DomainEvents (t : Task) : List DomainEvent := t.domainEvents

/-- `aggregate.Task.ClearDomainEvents`. -/
def ClearDomainEvents (t : Task) : Task := { t with domainEvents := [] }

/-- `aggregate.Task.Assign`: records the previous assignee id (empty
string when unassigned), builds the new assignment (which fails on an
empty assignee id, leaving the receiver untouched), then replaces the
assignment, refreshes `updatedAt` and appends a "task assigned" event. -/
def Assign (t : Task) (now : Int) (assigneeID assignedBy : String) :
    Task × Option TaskErr :=
  let previousAssigneeID :=
    match t.assignee with
    | some a => a.assigneeID
    | none => ""
  match NewAssignment now t.id assigneeID assignedBy with
  | .error e => (t, some (.validation e))
  | .ok assignment =>
      ({ t with assignee := some assignment, updatedAt := now,
                domainEvents := t.domainEvents ++
                  [NewTaskAssignedEvent now t.id assigneeID previousAssigneeID] },
       none)

/-- `aggregate.Task.ChangeStatus`: rejects invalid statuses, then
disallowed transitions, both before any mutation; on an allowed
transition it updates the status, refreshes `updatedAt` and appends a
"status changed" event, and when the new status is `COMPLETED` it reads
`t.assignee.AssigneeID()` — a nil dereference (panic) when the task has
no assignment — to append a "completed" event. -/
def ChangeStatus (t : Task) (now : Int) (newStatus : String) :
    Task × Option TaskErr :=
  if !(TaskStatus.IsValid newStatus) then
    (t, some (.validation ("invalid status: " ++ newStatus)))
  else if !(TaskStatus.CanTransitionTo t.status newStatus) then
    (t, some (.validation ("cannot transition from " ++ t.status ++ " to " ++ newStatus)))
  else
    let t' := { t with status := newStatus, updatedAt := now,
                       domainEvents := t.domainEvents ++
                         [NewTaskStatusChangedEvent now t.id t.status newStatus] }
    if newStatus = TaskStatusCompleted then
      match t.assignee with
      | some a =>
          ({ t' with domainEvents := t'.domainEvents ++
               [NewTaskCompletedEvent now t.id a.assigneeID now] }, none)
      | none => (t', some .nilDeref)
    else
      (t', none)

/-- `aggregate.Task.SetDeadline`: unconditionally replaces the deadline,
refreshes `updatedAt` and appends a "deadline set" event. -/
def SetDeadline (t : Task) (now : Int) (deadline : Deadline) :
    Task × Option TaskErr :=
  ({ t with deadline := some deadline, updatedAt := now,
            domainEvents := t.domainEvents ++
              [NewTaskDeadlineSetEvent now t.id deadline.dueDate] },
   none)

/-- `aggregate.Task.AddComment`: fails on a nil comment pointer;
otherwise appends the comment and refreshes `updatedAt`.  No domain
event is appended. -/
def AddComment (t : Task) (now : Int) (comment : Option Comment) :
    Task × Option TaskErr :=
  match comment with
  | none => (t, some (.validation "comment cannot be nil"))
  | some c => ({ t with comments := t.comments ++ [c], updatedAt := now }, none)

/-- `aggregate.Task.UpdateTitle`: fails on an empty title; otherwise
replaces it and refreshes `updatedAt`.  No domain event is appended. -/
def UpdateTitle (t : Task) (now : Int) (newTitle : String) :
    Task × Option TaskErr :=
  if newTitle = "" then
    (t, some (.validation "title cannot be empty"))
  else
    ({ t with title := newTitle, updatedAt := now }, none)

/-- `aggregate.Task.UpdateDescription`: always succeeds, replaces the
description and refreshes `updatedAt`.  No domain event is appended. -/
def UpdateDescription (t : Task) (now : Int) (newDescription : String) :
    Task × Option TaskErr :=
  ({ t with description := newDescription, updatedAt := now }, none)

/-- `aggregate.Task.UpdatePriority`: fails on an invalid priority;
otherwise replaces it and refreshes `updatedAt`.  No domain event is
appended. -/
def UpdatePriority (t : Task) (now : Int) (newPriority : String) :
    Task × Option TaskErr :=
  if !(Priority.IsValid newPriority) then
    (t, some (.validation "invalid priority"))
  else
    ({ t with priority := newPriority, updatedAt := now }, none)

/-- `aggregate.Task.UpdateStatus`: the source's "convenience method for
status update (without validation)" — sets any status unconditionally
and returns no error. -/
def UpdateStatus (t : Task) (now : Int) (newStatus : String) : Task :=
  { t with status := newStatus, updatedAt := now }

end Task

end Aggregate

namespace StatusTransitionService

/-- `service.StatusTransitionService.CanTransition`: delegates to the
status value object's table check. -/
def CanTransition (t : Aggregate.Task) (newStatus : String) : Bool :=
  TaskStatus.CanTransitionTo t.status newStatus

/-- Error wrapping performed by the service around an aggregate error
(`fmt.Errorf` with `%w`); a panic (`nilDeref`) unwinds unwrapped. -/
def wrapErr (prefixMsg : String) : TaskErr → TaskErr
  | .validation m => .validation (prefixMsg ++ m)
  | .nilDeref => .nilDeref

/-- `service.StatusTransitionService.TransitionTask`: fails on a
transition not in the table (without touching the aggregate), then on
`IN_PROGRESS` without an assignment, then on `COMPLETED` without a
deadline; only then calls `Task.ChangeStatus`, wrapping its error. -/
def TransitionTask (t : Aggregate.Task) (now : Int) (newStatus : String) :
    Aggregate.Task × Option TaskErr :=
  if !(CanTransition t newStatus) then
    (t, some (.validation
      ("invalid status transition from " ++ t.status ++ " to " ++ newStatus)))
  else if newStatus = TaskStatusInProgress && t.assignee.isNone then
    (t, some (.validation "task must be assigned before moving to in-progress"))
  else if newStatus = TaskStatusCompleted && t.deadline.isNone then
    (t, some (.validation "task must have a deadline before completion"))
  else
    match t.ChangeStatus now newStatus with
    | (t', none) => (t', none)
    | (t', some e) => (t', some (wrapErr "failed to change task status: " e))

end StatusTransitionService

namespace DeadlineEnforcementService

/-- Nanoseconds per day. -/
def nsPerDay : Int := 86400 * 1000000000

/-- The service's 5-year ceiling: the source computes
`time.Now().AddDate(5, 0, 0)`; the calendar arithmetic is modelled as a
fixed five-year tick offset added to `now`. -/
def fiveYearsTicks : Int := 5 * 365 * nsPerDay

/-- `service.DeadlineEnforcementService.ValidateDeadline`: fails when
the deadline is already overdue, or when its timestamp is after the
5-year ceiling `now + fiveYearsTicks`. -/
def ValidateDeadline (now : Int) (d : Deadline) : Option TaskErr :=
  if d.IsOverdue now then
    some (.validation "deadline cannot be in the past")
  else if now + fiveYearsTicks < d.Value then
    some (.validation "deadline too far in the future")
  else
    none

/-- `service.DeadlineEnforcementService.SetDeadline`: validates the
deadline, then refuses a deadline on a `COMPLETED` or `CANCELLED` task,
then delegates to `Task.SetDeadline`, wrapping its (never occurring)
error. -/
def SetDeadline (t : Aggregate.Task) (now : Int) (d : Deadline) :
    Aggregate.Task × Option TaskErr :=
  match ValidateDeadline now d with
  | some e => (t, some (StatusTransitionService.wrapErr "invalid deadline: " e))
  | none =>
      if t.status = TaskStatusCompleted || t.status = TaskStatusCancelled then
        (t, some (.validation "cannot set deadline for completed or cancelled tasks"))
      else
        match t.SetDeadline now d with
        | (t', none) => (t', none)
        | (t', some e) =>
            (t', some (StatusTransitionService.wrapErr "failed to set deadline: " e))

end DeadlineEnforcementService

/-- A subscriber handler: takes the event and returns an error or nil
(`event.DomainEvent → error` in the source). -/
def Handler : Type := DomainEvent → Option String

/-- `infrastructure/event.SimpleEventPublisher`: its Go map from event
type to handler slice is an association list with at most one entry per
key (`Subscribe` appends into the existing entry, `Unsubscribe` deletes
the key). -/
structure SimpleEventPublisher where
  subscribers : List (String × List Handler)

namespace SimpleEventPublisher

/-- `SimpleEventPublisher.Publish`: looks the event's type up; an absent
key is not an error; otherwise runs every handler, collects their
errors, and fails iff the collection is non-empty (the source formats
the collected errors into one `fmt.Errorf`; the error is modelled as the
collected list). -/
def Publish (p : SimpleEventPublisher) (evt : DomainEvent) :
    Option (List String) :=
  match p.subscribers.lookup evt.EventType with
  | none => none
  | some handlers =>
      let errs := handlers.filterMap (fun h => h evt)
      if errs.isEmpty then none else some errs

/-- `SimpleEventPublisher.PublishAll`: publishes sequentially in list
order, returning the first failure and not attempting later events. -/
def PublishAll (p : SimpleEventPublisher) : List DomainEvent → Option (List String)
  | [] => none
  | evt :: rest =>
      match p.Publish evt with
      | some err => some err
      | none => p.PublishAll rest

end SimpleEventPublisher

/-- A concrete assignment used by example tasks. -/
def sampleAssignment : Assignment :=
  { taskID := "task-1", assigneeID := "user-b", assignedAt := 0,
    assignedBy := "user-a" }

/-- A concrete task as produced by `NewTask` at instant 0: status
`TO_DO`, unassigned, no deadline, one "created" event queued. -/
def baseTask : Aggregate.Task :=
  { id := "task-1", projectID := "proj-1", title := "Implement auth",
    description := "Add login", status := TaskStatusToDo,
    priority := PriorityHigh, assignee := none, deadline := none,
    comments := [], createdAt := 0, updatedAt := 0, createdBy := "user-a",
    domainEvents :=
      [NewTaskCreatedEvent 0 "task-1" "proj-1" "Implement auth" "Add login" ""
        PriorityHigh] }

/-- `baseTask` moved to `IN_REVIEW`, still unassigned. -/
def inReviewUnassigned : Aggregate.Task :=
  { baseTask with status := TaskStatusInReview }

/-- `baseTask` moved to `IN_REVIEW` with an assignment. -/
def inReviewAssigned : Aggregate.Task :=
  { baseTask with status := TaskStatusInReview, assignee := some sampleAssignment }

/-- Sanity: `baseTask` is exactly what `NewTask` constructs. -/
theorem newTask_baseTask :
    Aggregate.NewTask 0 "task-1" "proj-1" "Implement auth" "Add login" PriorityHigh
      "user-a" = .ok baseTask := by
  rfl

/-- Every target in the spec's transition table is a valid status. -/
theorem mem_specTable_isValid (f s : String) (h : (f, s) ∈ specTable) :
    TaskStatus.IsValid s = true := by
  fin_cases h <;> decide

/-- C1 counterexample: the pair `(IN_REVIEW, COMPLETED)` is in the §4.2
transition table, yet `ChangeStatus(COMPLETED)` on a task in `IN_REVIEW`
does not succeed when the task is unassigned — the completion branch
dereferences the absent assignment (modelled as `nilDeref`), so the
claim's unconditional "succeeds" is false at this input. -/
theorem C1_counterexample :
    (TaskStatusInReview, TaskStatusCompleted) ∈ specTable ∧
    inReviewUnassigned.status = TaskStatusInReview ∧
    (inReviewUnassigned.ChangeStatus 5 TaskStatusCompleted).2 = some .nilDeref := by
  exact ⟨by decide, by rfl, by rfl⟩

/-- C1 (amended): for every task and target status, if
`(task.status, target)` is in the §4.2 table then `ChangeStatus` succeeds
with the new status — provided the task has an assignment whenever the
target is `COMPLETED` (otherwise the completion branch faults on the nil
assignment instead of succeeding); if the pair is not in the table,
`ChangeStatus` fails and the task, its status included, is unchanged. -/
theorem C1_changeStatus_follows_table (t : Aggregate.Task) (now : Int) (s : String) :
    ((t.status, s) ∈ specTable →
      (s = TaskStatusCompleted → t.assignee ≠ none) →
      (t.ChangeStatus now s).2 = none ∧ (t.ChangeStatus now s).1.status = s) ∧
    ((t.status, s) ∉ specTable →
      (t.ChangeStatus now s).2 ≠ none ∧ (t.ChangeStatus now s).1 = t) := by
  constructor
  · intro hmem hass
    have hV : TaskStatus.IsValid s = true := mem_specTable_isValid _ _ hmem
    have hC : TaskStatus.CanTransitionTo t.status s = true :=
      (canTransitionTo_iff_mem _ _).mpr hmem
    by_cases hs : s = TaskStatusCompleted
    · obtain ⟨a, ha⟩ := Option.ne_none_iff_exists'.mp (hass hs)
      subst hs
      simp [Aggregate.Task.ChangeStatus, hV, hC, ha]
    · simp [Aggregate.Task.ChangeStatus, hV, hC, hs]
  · intro hmem
    have hC : TaskStatus.CanTransitionTo t.status s = false := by
      rcases Bool.eq_false_or_eq_true (TaskStatus.CanTransitionTo t.status s) with h | h
      · exact absurd ((canTransitionTo_iff_mem _ _).mp h) hmem
      · exact h
    rcases Bool.eq_false_or_eq_true (TaskStatus.IsValid s) with hV | hV
    · simp [Aggregate.Task.ChangeStatus, hV, hC]
    · simp [Aggregate.Task.ChangeStatus, hV, hC]

/-- C1 witness: the amended theorem at the concrete assigned `IN_REVIEW`
task moving to `COMPLETED`, and at the concrete terminal `CANCELLED`
state where every move fails. -/
theorem C1_changeStatus_follows_table_witness :
    ((inReviewAssigned.ChangeStatus 5 TaskStatusCompleted).2 = none ∧
      (inReviewAssigned.ChangeStatus 5 TaskStatusCompleted).1.status =
        TaskStatusCompleted) ∧
    (({ baseTask with status := TaskStatusCancelled } : Aggregate.Task).ChangeStatus 5
        TaskStatusToDo).2 ≠ none := by
  constructor
  · exact (C1_changeStatus_follows_table inReviewAssigned 5 TaskStatusCompleted).1
      (by decide) (by decide)
  · exact ((C1_changeStatus_follows_table { baseTask with status := TaskStatusCancelled }
      5 TaskStatusToDo).2 (by decide)).1

/-- C2: on any task in `IN_REVIEW` holding an assignment,
`ChangeStatus(COMPLETED)` succeeds and appends exactly the
"status changed" event followed by the "completed" event carrying the
current assignee id; and the dereference's none-branch is reachable: the
concrete unassigned `IN_REVIEW` task hits it. -/
theorem C2_completion_events (t : Aggregate.Task) (now : Int) (a : Assignment)
    (hst : t.status = TaskStatusInReview) (ha : t.assignee = some a) :
    ((t.ChangeStatus now TaskStatusCompleted).2 = none ∧
     (t.ChangeStatus now TaskStatusCompleted).1.domainEvents =
       t.domainEvents ++
         [NewTaskStatusChangedEvent now t.id TaskStatusInReview TaskStatusCompleted,
          NewTaskCompletedEvent now t.id a.assigneeID now]) ∧
    (inReviewUnassigned.ChangeStatus now TaskStatusCompleted).2 = some .nilDeref := by
  have h1 : TaskStatus.IsValid TaskStatusCompleted = true := by decide
  have h2 : TaskStatus.CanTransitionTo TaskStatusInReview TaskStatusCompleted = true := by
    decide
  refine ⟨?_, ?_⟩
  · simp [Aggregate.Task.ChangeStatus, hst, ha, h1, h2]
  · simp [Aggregate.Task.ChangeStatus, inReviewUnassigned, baseTask, h1]
    rfl

/-- C2 witness: the theorem at the concrete assigned `IN_REVIEW` task. -/
theorem C2_completion_events_witness :
    (inReviewAssigned.ChangeStatus 7 TaskStatusCompleted).2 = none ∧
    (inReviewAssigned.ChangeStatus 7 TaskStatusCompleted).1.domainEvents =
      inReviewAssigned.domainEvents ++
        [NewTaskStatusChangedEvent 7 inReviewAssigned.id TaskStatusInReview
           TaskStatusCompleted,
         NewTaskCompletedEvent 7 inReviewAssigned.id sampleAssignment.assigneeID 7] :=
  (C2_completion_events inReviewAssigned 7 sampleAssignment rfl rfl).1

/-- The state invariant of C3's claim that is a predicate on a single
task state: non-empty title and valid priority.  (The third invariant,
status movement along the table, is a property of steps and appears in
the theorem directly.) -/
def TaskInv (t : Aggregate.Task) : Prop :=
  t.title ≠ "" ∧ Priority.IsValid t.priority = true

/-- C3 counterexample: from a state satisfying all invariants (status
`COMPLETED`, terminal), the public mutating operation `UpdateStatus`
moves the status to `BACKLOG` although the table has no such edge, so
the claim that every listed operation moves the status only along the
table is false at this input. -/
theorem C3_counterexample :
    TaskInv { baseTask with status := TaskStatusCompleted } ∧
    (Aggregate.Task.UpdateStatus { baseTask with status := TaskStatusCompleted } 5
       TaskStatusBacklog).status = TaskStatusBacklog ∧
    TaskStatus.CanTransitionTo TaskStatusCompleted TaskStatusBacklog = false := by
  exact ⟨⟨by decide, by decide⟩, rfl, by decide⟩

/-- C3 (amended): every listed operation preserves the non-empty-title
and valid-priority invariants; every operation except `UpdateStatus`
either leaves the status unchanged or (for `ChangeStatus`) moves it
along an edge of the transition table; `UpdateStatus` preserves title
and priority but sets the status unconditionally, without table
validation. -/
theorem C3_invariants (t : Aggregate.Task) (now : Int)
    (assigneeID assignedBy newTitle newDescription newPriority newStatus : String)
    (c : Option Comment) (d : Deadline) (hInv : TaskInv t) :
    ((t.Assign now assigneeID assignedBy).2 = none →
      TaskInv (t.Assign now assigneeID assignedBy).1 ∧
      (t.Assign now assigneeID assignedBy).1.status = t.status) ∧
    ((t.ChangeStatus now newStatus).2 = none →
      TaskInv (t.ChangeStatus now newStatus).1 ∧
      TaskStatus.CanTransitionTo t.status
        (t.ChangeStatus now newStatus).1.status = true) ∧
    (TaskInv (t.SetDeadline now d).1 ∧ (t.SetDeadline now d).1.status = t.status) ∧
    ((t.AddComment now c).2 = none →
      TaskInv (t.AddComment now c).1 ∧ (t.AddComment now c).1.status = t.status) ∧
    ((t.UpdateTitle now newTitle).2 = none →
      TaskInv (t.UpdateTitle now newTitle).1 ∧
      (t.UpdateTitle now newTitle).1.status = t.status) ∧
    (TaskInv (t.UpdateDescription now newDescription).1 ∧
      (t.UpdateDescription now newDescription).1.status = t.status) ∧
    ((t.UpdatePriority now newPriority).2 = none →
      TaskInv (t.UpdatePriority now newPriority).1 ∧
      (t.UpdatePriority now newPriority).1.status = t.status) ∧
    ((t.UpdateStatus now newStatus).title = t.title ∧
      (t.UpdateStatus now newStatus).priority = t.priority) := by
  obtain ⟨hT, hP⟩ := hInv
  refine ⟨?_, ?_, ?_, ?_, ?_, ?_, ?_, ?_⟩
  · intro hok
    by_cases h : assigneeID = ""
    · simp [Aggregate.Task.Assign, NewAssignment, h] at hok
    · simp [Aggregate.Task.Assign, NewAssignment, h, TaskInv, hT, hP]
  · intro hok
    rcases Bool.eq_false_or_eq_true (TaskStatus.IsValid newStatus) with hV | hV
    · rcases Bool.eq_false_or_eq_true (TaskStatus.CanTransitionTo t.status newStatus)
        with hC | hC
      · by_cases hs : newStatus = TaskStatusCompleted
        · rcases hA : t.assignee with _ | a
          · subst hs; simp [Aggregate.Task.ChangeStatus, hV, hC, hA] at hok
          · subst hs
            simp [Aggregate.Task.ChangeStatus, hV, hC, hA, TaskInv, hT, hP]
        · simp [Aggregate.Task.ChangeStatus, hV, hC, hs, TaskInv, hT, hP]
      · simp [Aggregate.Task.ChangeStatus, hV, hC] at hok
    · simp [Aggregate.Task.ChangeStatus, hV] at hok
  · simp [Aggregate.Task.SetDeadline, TaskInv, hT, hP]
  · intro hok
    rcases c with _ | c
    · simp [Aggregate.Task.AddComment] at hok
    · simp [Aggregate.Task.AddComment, TaskInv, hT, hP]
  · intro hok
    by_cases h : newTitle = ""
    · simp [Aggregate.Task.UpdateTitle, h] at hok
    · simp [Aggregate.Task.UpdateTitle, h, TaskInv, hP]
  · simp [Aggregate.Task.UpdateDescription, TaskInv, hT, hP]
  · intro hok
    rcases Bool.eq_false_or_eq_true (Priority.IsValid newPriority) with hV | hV
    · simp [Aggregate.Task.UpdatePriority, hV, TaskInv, hT]
    · simp [Aggregate.Task.UpdatePriority, hV] at hok
  · simp [Aggregate.Task.UpdateStatus]

/-- C3 witness: the amended theorem at `baseTask` with concrete
arguments. -/
theorem C3_invariants_witness :
    (TaskInv (baseTask.Assign 3 "user-b" "user-a").1 ∧
      (baseTask.Assign 3 "user-b" "user-a").1.status = baseTask.status) ∧
    ((baseTask.UpdateStatus 3 TaskStatusCancelled).title = baseTask.title ∧
      (baseTask.UpdateStatus 3 TaskStatusCancelled).priority = baseTask.priority) := by
  have h := C3_invariants baseTask 3 "user-b" "user-a" "New title" "New desc"
    PriorityLow TaskStatusCancelled none ⟨9⟩ ⟨by decide, by decide⟩
  exact ⟨h.1 (by decide), h.2.2.2.2.2.2.2⟩

/-- A concrete comment used by examples. -/
def sampleComment : Comment :=
  { id := "c-1", taskID := "task-1", authorID := "user-a",
    content := "Looks good", createdAt := 0, updatedAt := 0 }

/-- C4 counterexample: `AddComment` succeeds on a concrete task yet the
length of `DomainEvents()` is unchanged (the source appends no event
there), so "every successful mutating call strictly increases the event
count" is false at this input. -/
theorem C4_counterexample :
    (baseTask.AddComment 5 (some sampleComment)).2 = none ∧
    (baseTask.AddComment 5 (some sampleComment)).1.DomainEvents.length =
      baseTask.DomainEvents.length := by
  exact ⟨rfl, rfl⟩

/-- C4 (amended): successful `Assign`, `ChangeStatus` and `SetDeadline`
strictly increase the length of `DomainEvents()`; successful
`AddComment`, `UpdateTitle`, `UpdateDescription` and `UpdatePriority`
leave it unchanged (they emit no events); after `ClearDomainEvents()`
the length is `0`. -/
theorem C4_event_counts (t : Aggregate.Task) (now : Int)
    (assigneeID assignedBy newTitle newDescription newPriority newStatus : String)
    (c : Option Comment) (d : Deadline) :
    ((t.Assign now assigneeID assignedBy).2 = none →
      t.DomainEvents.length <
        (t.Assign now assigneeID assignedBy).1.DomainEvents.length) ∧
    ((t.ChangeStatus now newStatus).2 = none →
      t.DomainEvents.length < (t.ChangeStatus now newStatus).1.DomainEvents.length) ∧
    (t.DomainEvents.length < (t.SetDeadline now d).1.DomainEvents.length) ∧
    ((t.AddComment now c).2 = none →
      (t.AddComment now c).1.DomainEvents.length = t.DomainEvents.length) ∧
    ((t.UpdateTitle now newTitle).2 = none →
      (t.UpdateTitle now newTitle).1.DomainEvents.length = t.DomainEvents.length) ∧
    ((t.UpdateDescription now newDescription).1.DomainEvents.length =
      t.DomainEvents.length) ∧
    ((t.UpdatePriority now newPriority).2 = none →
      (t.UpdatePriority now newPriority).1.DomainEvents.length =
        t.DomainEvents.length) ∧
    (t.ClearDomainEvents.DomainEvents.length = 0) := by
  refine ⟨?_, ?_, ?_, ?_, ?_, ?_, ?_, ?_⟩
  · intro hok
    by_cases h : assigneeID = ""
    · simp [Aggregate.Task.Assign, NewAssignment, h] at hok
    · simp [Aggregate.Task.Assign, NewAssignment, h, Aggregate.Task.DomainEvents]
  · intro hok
    rcases Bool.eq_false_or_eq_true (TaskStatus.IsValid newStatus) with hV | hV
    · rcases Bool.eq_false_or_eq_true (TaskStatus.CanTransitionTo t.status newStatus)
        with hC | hC
      · by_cases hs : newStatus = TaskStatusCompleted
        · rcases hA : t.assignee with _ | a
          · subst hs; simp [Aggregate.Task.ChangeStatus, hV, hC, hA] at hok
          · subst hs
            simp [Aggregate.Task.ChangeStatus, hV, hC, hA, Aggregate.Task.DomainEvents]
        · simp [Aggregate.Task.ChangeStatus, hV, hC, hs, Aggregate.Task.DomainEvents]
      · simp [Aggregate.Task.ChangeStatus, hV, hC] at hok
    · simp [Aggregate.Task.ChangeStatus, hV] at hok
  · simp [Aggregate.Task.SetDeadline, Aggregate.Task.DomainEvents]
  · intro hok
    rcases c with _ | c
    · simp [Aggregate.Task.AddComment] at hok
    · simp [Aggregate.Task.AddComment, Aggregate.Task.DomainEvents]
  · intro hok
    by_cases h : newTitle = ""
    · simp [Aggregate.Task.UpdateTitle, h] at hok
    · simp [Aggregate.Task.UpdateTitle, h, Aggregate.Task.DomainEvents]
  · simp [Aggregate.Task.UpdateDescription, Aggregate.Task.DomainEvents]
  · intro hok
    rcases Bool.eq_false_or_eq_true (Priority.IsValid newPriority) with hV | hV
    · simp [Aggregate.Task.UpdatePriority, hV, Aggregate.Task.DomainEvents]
    · simp [Aggregate.Task.UpdatePriority, hV] at hok
  · simp [Aggregate.Task.ClearDomainEvents, Aggregate.Task.DomainEvents]

/-- C4 witness: the amended theorem at `baseTask` with concrete
arguments. -/
theorem C4_event_counts_witness :
    (baseTask.DomainEvents.length <
      (baseTask.Assign 3 "user-b" "user-a").1.DomainEvents.length) ∧
    baseTask.ClearDomainEvents.DomainEvents.length = 0 := by
  have h := C4_event_counts baseTask 3 "user-b" "user-a" "New title" "New desc"
    PriorityLow TaskStatusCancelled none ⟨9⟩
  exact ⟨h.1 (by decide), h.2.2.2.2.2.2.2⟩

/-- C6: for every validation / invariant-violation failure of the listed
Task operations — `ChangeStatus` on an invalid status or a disallowed
transition, `Assign` with an empty assignee id, `AddComment` with an
absent comment, `UpdateTitle` with an empty title, `UpdatePriority` with
an invalid priority — the operation returns an error and the task state
(every field, the uncommitted-event list included) equals the state
before the call. -/
theorem C6_failure_leaves_state_unchanged (t : Aggregate.Task) (now : Int)
    (newStatus assignedBy newPriority : String) :
    ((TaskStatus.IsValid newStatus = false ∨
      TaskStatus.CanTransitionTo t.status newStatus = false) →
      (t.ChangeStatus now newStatus).1 = t ∧ (t.ChangeStatus now newStatus).2 ≠ none) ∧
    ((t.Assign now "" assignedBy).1 = t ∧ (t.Assign now "" assignedBy).2 ≠ none) ∧
    ((t.AddComment now none).1 = t ∧ (t.AddComment now none).2 ≠ none) ∧
    ((t.UpdateTitle now "").1 = t ∧ (t.UpdateTitle now "").2 ≠ none) ∧
    (Priority.IsValid newPriority = false →
      (t.UpdatePriority now newPriority).1 = t ∧
      (t.UpdatePriority now newPriority).2 ≠ none) := by
  refine ⟨?_, ?_, ?_, ?_, ?_⟩
  · rintro (hV | hC)
    · simp [Aggregate.Task.ChangeStatus, hV]
    · rcases Bool.eq_false_or_eq_true (TaskStatus.IsValid newStatus) with hV | hV
      · simp [Aggregate.Task.ChangeStatus, hV, hC]
      · simp [Aggregate.Task.ChangeStatus, hV]
  · simp [Aggregate.Task.Assign, NewAssignment]
  · simp [Aggregate.Task.AddComment]
  · simp [Aggregate.Task.UpdateTitle]
  · intro hV
    simp [Aggregate.Task.UpdatePriority, hV]

/-- C6 witness: the theorem at `baseTask`: a disallowed transition
(`TO_DO` to `COMPLETED`) and an invalid priority both leave the task
unchanged. -/
theorem C6_failure_leaves_state_unchanged_witness :
    ((baseTask.ChangeStatus 3 TaskStatusCompleted).1 = baseTask ∧
      (baseTask.ChangeStatus 3 TaskStatusCompleted).2 ≠ none) ∧
    ((baseTask.UpdatePriority 3 "URGENT").1 = baseTask ∧
      (baseTask.UpdatePriority 3 "URGENT").2 ≠ none) := by
  have h := C6_failure_leaves_state_unchanged baseTask 3 TaskStatusCompleted
    "user-a" "URGENT"
  exact ⟨h.1 (Or.inr (by decide)), h.2.2.2.2 (by decide)⟩

/-- `baseTask` in `IN_REVIEW` with a deadline but no assignment. -/
def inReviewWithDeadline : Aggregate.Task :=
  { baseTask with status := TaskStatusInReview, deadline := some ⟨100⟩ }

/-- C5 counterexample: a task in `IN_REVIEW` with a deadline set (and the
`IN_REVIEW → COMPLETED` transition allowed), on which
`TransitionTask(COMPLETED)` still does not succeed: the task is
unassigned, and the aggregate's completion branch faults on the nil
assignment, so "succeeds once a deadline is set (holding all else
equal)" is false at this input. -/
theorem C5_counterexample :
    StatusTransitionService.CanTransition inReviewWithDeadline TaskStatusCompleted
        = true ∧
    inReviewWithDeadline.deadline ≠ none ∧
    (StatusTransitionService.TransitionTask inReviewWithDeadline 5
        TaskStatusCompleted).2 ≠ none := by
  exact ⟨by decide, by decide, by decide⟩

/-- C5 (amended): `TransitionTask` first checks table membership and
fails leaving the task untouched if the transition is not allowed; when
allowed it fails (task untouched) on `IN_PROGRESS` without an assignment
and on `COMPLETED` without a deadline; when both prerequisites hold it
delegates to `Task.ChangeStatus` (same resulting task, success iff the
aggregate call succeeds).  In particular, to `IN_PROGRESS` it fails
unassigned and succeeds once assigned; to `COMPLETED` it fails without a
deadline, and with a deadline it succeeds provided the task also has an
assignment (for an unassigned task the aggregate's completion branch
faults instead). -/
theorem C5_transitionTask (t : Aggregate.Task) (now : Int) (newStatus : String) :
    (StatusTransitionService.CanTransition t newStatus = false →
      (StatusTransitionService.TransitionTask t now newStatus).1 = t ∧
      (StatusTransitionService.TransitionTask t now newStatus).2 ≠ none) ∧
    (StatusTransitionService.CanTransition t newStatus = true →
      newStatus = TaskStatusInProgress → t.assignee = none →
      (StatusTransitionService.TransitionTask t now newStatus).1 = t ∧
      (StatusTransitionService.TransitionTask t now newStatus).2 ≠ none) ∧
    (StatusTransitionService.CanTransition t newStatus = true →
      newStatus = TaskStatusCompleted → t.deadline = none →
      (StatusTransitionService.TransitionTask t now newStatus).1 = t ∧
      (StatusTransitionService.TransitionTask t now newStatus).2 ≠ none) ∧
    (StatusTransitionService.CanTransition t newStatus = true →
      ¬(newStatus = TaskStatusInProgress ∧ t.assignee = none) →
      ¬(newStatus = TaskStatusCompleted ∧ t.deadline = none) →
      (StatusTransitionService.TransitionTask t now newStatus).1 =
        (t.ChangeStatus now newStatus).1 ∧
      ((StatusTransitionService.TransitionTask t now newStatus).2 = none ↔
        (t.ChangeStatus now newStatus).2 = none)) ∧
    (StatusTransitionService.CanTransition t newStatus = true →
      newStatus = TaskStatusInProgress → t.assignee ≠ none →
      (StatusTransitionService.TransitionTask t now newStatus).2 = none) ∧
    (StatusTransitionService.CanTransition t newStatus = true →
      newStatus = TaskStatusCompleted → t.deadline ≠ none → t.assignee ≠ none →
      (StatusTransitionService.TransitionTask t now newStatus).2 = none) := by
  refine ⟨?_, ?_, ?_, ?_, ?_, ?_⟩
  · intro hCan
    simp [StatusTransitionService.TransitionTask, hCan]
  · intro hCan hs hA
    subst hs
    simp [StatusTransitionService.TransitionTask, hCan, hA]
  · intro hCan hs hD
    subst hs
    have hne : ¬(TaskStatusCompleted = TaskStatusInProgress) := by decide
    simp [StatusTransitionService.TransitionTask, hCan, hD, hne]
  · intro hCan hIP hCO
    have hIP' : (decide (newStatus = TaskStatusInProgress) && t.assignee.isNone)
        = false := by
      rcases hA : t.assignee with _ | a
      · by_cases hs : newStatus = TaskStatusInProgress
        · exact absurd ⟨hs, hA⟩ hIP
        · simp [hs]
      · simp
    have hCO' : (decide (newStatus = TaskStatusCompleted) && t.deadline.isNone)
        = false := by
      rcases hD : t.deadline with _ | d
      · by_cases hs : newStatus = TaskStatusCompleted
        · exact absurd ⟨hs, hD⟩ hCO
        · simp [hs]
      · simp
    rcases hc : t.ChangeStatus now newStatus with ⟨t', e⟩
    rcases e with _ | e
    · simp [StatusTransitionService.TransitionTask, hCan, hIP', hCO', hc]
    · simp [StatusTransitionService.TransitionTask, hCan, hIP', hCO', hc]
  · intro hCan hs hA
    subst hs
    obtain ⟨a, ha⟩ := Option.ne_none_iff_exists'.mp hA
    have hCT : TaskStatus.CanTransitionTo t.status TaskStatusInProgress = true := hCan
    have hval : TaskStatus.IsValid TaskStatusInProgress = true := by decide
    have hne : ¬(TaskStatusInProgress = TaskStatusCompleted) := by decide
    simp [StatusTransitionService.TransitionTask, StatusTransitionService.CanTransition,
      hCT, ha, Aggregate.Task.ChangeStatus, hval, hne]
  · intro hCan hs hD hA
    subst hs
    obtain ⟨a, ha⟩ := Option.ne_none_iff_exists'.mp hA
    obtain ⟨d, hd⟩ := Option.ne_none_iff_exists'.mp hD
    have hCT : TaskStatus.CanTransitionTo t.status TaskStatusCompleted = true := hCan
    have hval : TaskStatus.IsValid TaskStatusCompleted = true := by decide
    simp [StatusTransitionService.TransitionTask, StatusTransitionService.CanTransition,
      hCT, ha, hd, Aggregate.Task.ChangeStatus, hval]

/-- C5 witness: the amended theorem at concrete tasks: an assigned
`TO_DO` task moves to `IN_PROGRESS`; an assigned `IN_REVIEW` task with a
deadline moves to `COMPLETED`. -/
theorem C5_transitionTask_witness :
    (StatusTransitionService.TransitionTask
        { baseTask with assignee := some sampleAssignment } 5
        TaskStatusInProgress).2 = none ∧
    (StatusTransitionService.TransitionTask
        { inReviewAssigned with deadline := some ⟨100⟩ } 5
        TaskStatusCompleted).2 = none := by
  constructor
  · exact (C5_transitionTask { baseTask with assignee := some sampleAssignment } 5
      TaskStatusInProgress).2.2.2.2.1 (by decide) rfl (by decide)
  · exact (C5_transitionTask { inReviewAssigned with deadline := some ⟨100⟩ } 5
      TaskStatusCompleted).2.2.2.2.2 (by decide) rfl (by decide) (by decide)

/-- C7 counterexample: constructing a deadline with a timestamp exactly
equal to the construction instant — which is not strictly in the future
— succeeds, because the source only rejects timestamps strictly before
`time.Now()`; the claim that construction fails whenever the timestamp
is not strictly in the future is false at this input. -/
theorem C7_counterexample :
    NewDeadline 0 0 = .ok ⟨0⟩ := by
  rfl

/-- C7 (amended): `NewDeadline` fails exactly when the timestamp is
strictly in the past; it succeeds for every timestamp equal to or after
the construction instant (in particular for every strictly-future one);
and `IsOverdue()` evaluated at the instant of a successful construction
is always false. -/
theorem C7_newDeadline (now dueDate : Int) :
    (dueDate < now → NewDeadline now dueDate = .error "deadline cannot be in the past") ∧
    (¬dueDate < now → NewDeadline now dueDate = .ok ⟨dueDate⟩) ∧
    (∀ d, NewDeadline now dueDate = .ok d → d.IsOverdue now = false) := by
  refine ⟨?_, ?_, ?_⟩
  · intro h; simp [NewDeadline, h]
  · intro h; simp [NewDeadline, h]
  · intro d hd
    by_cases h : dueDate < now
    · simp [NewDeadline, h] at hd
    · simp [NewDeadline, h] at hd
      subst hd
      simp [Deadline.IsOverdue]
      omega

/-- C7 witness: the amended theorem at the concrete instant `0` and the
strictly-future timestamp `5`. -/
theorem C7_newDeadline_witness :
    NewDeadline 0 5 = .ok ⟨5⟩ ∧ Deadline.IsOverdue ⟨5⟩ 0 = false := by
  exact ⟨(C7_newDeadline 0 5).2.1 (by decide),
    (C7_newDeadline 0 5).2.2 ⟨5⟩ ((C7_newDeadline 0 5).2.1 (by decide))⟩

/-- C8: `ValidateDeadline` fails exactly when the deadline is already
overdue or lies beyond the 5-year ceiling (so a deadline 6 years out
fails although it is in the future), and `SetDeadline` fails exactly
when validation fails or the task's status is `COMPLETED` or
`CANCELLED`; otherwise it delegates to `Task.SetDeadline`, which
succeeds. -/
theorem C8_deadline_enforcement (t : Aggregate.Task) (now : Int) (d : Deadline) :
    (DeadlineEnforcementService.ValidateDeadline now d ≠ none ↔
      (d.IsOverdue now = true ∨
        now + DeadlineEnforcementService.fiveYearsTicks < d.Value)) ∧
    (DeadlineEnforcementService.ValidateDeadline now
        ⟨now + 6 * 365 * DeadlineEnforcementService.nsPerDay⟩ ≠ none ∧
      now < now + 6 * 365 * DeadlineEnforcementService.nsPerDay) ∧
    ((DeadlineEnforcementService.SetDeadline t now d).2 ≠ none ↔
      (DeadlineEnforcementService.ValidateDeadline now d ≠ none ∨
        t.status = TaskStatusCompleted ∨ t.status = TaskStatusCancelled)) ∧
    (DeadlineEnforcementService.ValidateDeadline now d = none →
      t.status ≠ TaskStatusCompleted → t.status ≠ TaskStatusCancelled →
      DeadlineEnforcementService.SetDeadline t now d = t.SetDeadline now d ∧
      (DeadlineEnforcementService.SetDeadline t now d).2 = none) := by
  refine ⟨?_, ?_, ?_, ?_⟩
  · simp [DeadlineEnforcementService.ValidateDeadline, Deadline.IsOverdue,
      Deadline.Value]
    constructor
    · intro h
      by_cases h1 : d.dueDate < now
      · exact Or.inl h1
      · by_cases h2 : now + DeadlineEnforcementService.fiveYearsTicks < d.dueDate
        · exact Or.inr h2
        · simp [h1, h2] at h
    · rintro (h1 | h2)
      · simp [h1]
      · by_cases h1 : d.dueDate < now
        · simp [h1]
        · simp [h1, h2]
  · constructor
    · simp [DeadlineEnforcementService.ValidateDeadline, Deadline.IsOverdue,
        Deadline.Value, DeadlineEnforcementService.fiveYearsTicks,
        DeadlineEnforcementService.nsPerDay]
    · simp [DeadlineEnforcementService.nsPerDay]
  · rcases hv : DeadlineEnforcementService.ValidateDeadline now d with _ | e
    · by_cases hc : t.status = TaskStatusCompleted
      · simp [DeadlineEnforcementService.SetDeadline, hv, hc]
      · by_cases hx : t.status = TaskStatusCancelled
        · simp [DeadlineEnforcementService.SetDeadline, hv, hc, hx]
        · simp [DeadlineEnforcementService.SetDeadline, hv, hc, hx,
            Aggregate.Task.SetDeadline]
    · simp [DeadlineEnforcementService.SetDeadline, hv]
  · intro hv hc hx
    simp [DeadlineEnforcementService.SetDeadline, hv, hc, hx,
      Aggregate.Task.SetDeadline]

/-- C8 witness: the theorem at `baseTask`, the instant `0` and a valid
near deadline. -/
theorem C8_deadline_enforcement_witness :
    DeadlineEnforcementService.SetDeadline baseTask 0 ⟨10⟩ =
        baseTask.SetDeadline 0 ⟨10⟩ ∧
    (DeadlineEnforcementService.SetDeadline baseTask 0 ⟨10⟩).2 = none := by
  exact (C8_deadline_enforcement baseTask 0 ⟨10⟩).2.2.2 (by decide) (by decide)
      (by decide)

/-- C10: a deadline is never simultaneously overdue and due-soon at one
instant: `IsOverdue` needs the due date strictly before the current
time, `IsDueSoon` strictly after it. -/
theorem C10_overdue_never_dueSoon (d : Deadline) (now duration : Int) :
    ¬(d.IsOverdue now = true ∧ d.IsDueSoon now duration = true) := by
  simp [Deadline.IsOverdue, Deadline.IsDueSoon]
  omega

/-- C9: for the in-memory publisher, `Publish` succeeds whenever no
subscriber is registered for the event's kind; `PublishAll` works
through the list in order and returns the first failing event's error
without attempting the events after it (the result is independent of
them), and succeeds when every event publishes cleanly. -/
theorem C9_publisher (p : SimpleEventPublisher) (evt : DomainEvent)
    (xs zs : List DomainEvent) (err : List String) :
    (p.subscribers.lookup evt.EventType = none → p.Publish evt = none) ∧
    ((∀ e ∈ xs, p.Publish e = none) → p.Publish evt = some err →
      p.PublishAll (xs ++ evt :: zs) = some err) ∧
    ((∀ e ∈ xs, p.Publish e = none) → p.PublishAll xs = none) := by
  refine ⟨?_, ?_, ?_⟩
  · intro h
    simp [SimpleEventPublisher.Publish, h]
  · intro hok hfail
    induction xs with
    | nil => simp [SimpleEventPublisher.PublishAll, hfail]
    | cons x rest ih =>
        have hx : p.Publish x = none := hok x (by simp)
        have hrest : ∀ e ∈ rest, p.Publish e = none := fun e he => hok e (by simp [he])
        simp [SimpleEventPublisher.PublishAll, hx]
        exact ih hrest
  · intro hok
    induction xs with
    | nil => rfl
    | cons x rest ih =>
        have hx : p.Publish x = none := hok x (by simp)
        have hrest : ∀ e ∈ rest, p.Publish e = none := fun e he => hok e (by simp [he])
        simp [SimpleEventPublisher.PublishAll, hx]
        exact ih hrest

/-- A handler that always fails, and a publisher with one subscription,
for the publisher's kind "TaskAssigned". -/
def failingHandler : Handler := fun _ => some "handler failed"

/-- A publisher whose only subscription is a failing handler for the
event kind "TaskAssigned". -/
def samplePublisher : SimpleEventPublisher :=
  { subscribers := [("TaskAssigned", [failingHandler])] }

/-- A concrete "created" event (kind "TaskCreated": unsubscribed). -/
def sampleCreatedEvent : DomainEvent :=
  NewTaskCreatedEvent 0 "task-1" "proj-1" "Implement auth" "Add login" "" PriorityHigh

/-- A concrete "assigned" event (kind "TaskAssigned": subscribed). -/
def sampleAssignedEvent : DomainEvent :=
  NewTaskAssignedEvent 0 "task-1" "user-b" ""

/-- C9 witness: the theorem at the concrete publisher: publishing the
unsubscribed kind succeeds, and `PublishAll` on
`[created, assigned, created]` stops at the failing "assigned" event and
returns its error. -/
theorem C9_publisher_witness :
    samplePublisher.Publish sampleCreatedEvent = none ∧
    samplePublisher.PublishAll [sampleCreatedEvent, sampleAssignedEvent,
      sampleCreatedEvent] = some ["handler failed"] := by
  constructor
  · exact (C9_publisher samplePublisher sampleCreatedEvent [] [] []).1 rfl
  · exact (C9_publisher samplePublisher sampleAssignedEvent [sampleCreatedEvent]
      [sampleCreatedEvent] ["handler failed"]).2.1
      (by intro e he; rw [List.mem_singleton] at he; subst he; rfl) rfl
